import Mathlib

/-! Chat relay server (`src/server.cpp`): shallow embedding.

The server keeps a `vector<Client>` and, for every readable client socket,
runs `handleClientMessage`: it reads, parses the bytes of one `read()` as one
JSON document and either registers the sender or relays the document to the
other entries of the list.

Modelling conventions.

* `vector<Client>` is `List Client`; file descriptors are `Int`.
* Effects are returned as the list of events a call performs, in order:
  every `write()` (with its target, its bytes and what became of it),
  every `perror`, every line sent to `cout`/`cerr`, every `close()`.
* What becomes of a `write()` is not decided by the program. It is given by
  `wr : Nat → WriteResult`, the result of the k-th `write()` call of the
  process; functions that write take the number `k` of writes made before
  them. A write either returns a count, or returns `-1`, or raises
  `SIGPIPE` (the peer is gone); the server never changes the disposition of
  that signal, so the process ends at such a write.
* `nlohmann::json` is a library outside the repository. Its value domain is
  the inductive `Json`; the member functions the server calls (`contains`,
  `operator[]`, comparison with a string literal, conversion to
  `std::string`) are modelled on it, and `parse`/`dump` are taken as
  parameters (`JsonLib`). C++ exceptions are the values of `Exn`.
* The successive results of `read()` on the client socket are the input
  list of `handleClientMessage`; when the list is used up the next `read()`
  is taken to report `EAGAIN`. The bytes of a read are held as text and
  their count is the UTF-8 size (bytes that are not UTF-8 text have no
  value here; the library answers them with a `parse_error`). A count of
  `BUFF_SIZE` makes the store `buffer[count] = 0` fall outside `buffer`:
  the behaviour is undefined and the run ends there with the fault
  `overrun`.
-/

namespace ChatServer

/-! ## Data model -/

/-- The constant `BUFF_SIZE` of `server.cpp`: size of the read buffer. -/
def BUFF_SIZE : Nat := 1024

/-- The record `struct Client { string name; int fd; }`. -/
structure Client where
  name : String
  fd : Int
deriving DecidableEq, Repr

/-- Values of `nlohmann::json`. Objects list their members in key order, as
the library's `std::map` holds them. -/
inductive Json where
  | null
  | boolean (b : Bool)
  | number (n : Int)
  | string (s : String)
  | array (items : List Json)
  | object (members : List (String × Json))

/-- The exceptions of `nlohmann::json` that the server can meet. -/
inductive Exn where
  | parse_error
  | type_error
  | out_of_range
deriving DecidableEq, Repr

/-- The two library entry points whose code is not part of the repository:
`json::parse`, which returns a value or throws, and `json::dump`. -/
structure JsonLib where
  parse : String → Except Exn Json
  dump : Json → String

/-- Member lookup in the member list of an object. -/
def Json.lookup (key : String) : List (String × Json) → Option Json
  | [] => none
  | (k, v) :: rest => if k = key then some v else Json.lookup key rest

/-- The call `j.contains(key)`: true only for an object holding the key. -/
def Json.contains : Json → String → Bool
  | .object members, key => (Json.lookup key members).isSome
  | _, _ => false

/-- The non-const `j[key]`: on an object the stored value, or the `null` it
inserts when the key is absent; on `null` (which becomes an empty object)
`null`; on any other value a `type_error`. -/
def Json.subscript : Json → String → Except Exn Json
  | .object members, key => .ok ((Json.lookup key members).getD .null)
  | .null, _ => .ok .null
  | _, _ => .error .type_error

/-- The comparison `j == "literal"`: true only for a string with that text. -/
def Json.eqString : Json → String → Bool
  | .string s, t => decide (s = t)
  | _, _ => false

/-- The implicit conversion of a `json` to `std::string`: a `type_error`
unless the value is a string. -/
def Json.getString : Json → Except Exn String
  | .string s => .ok s
  | _ => .error .type_error

/-- What becomes of one `write()` call. -/
inductive WriteResult where
  /-- The call returns a count. -/
  | ok
  /-- The call returns `-1`. -/
  | failed
  /-- The call raises `SIGPIPE`; with the default disposition the process
  ends. -/
  | sigpipe
deriving DecidableEq, Repr

/-- One observable action of the server. -/
inductive Event where
  | write (fd : Int) (data : String) (result : WriteResult)
  | perror (what : String)
  | cout (line : String)
  | cerr (line : String)
  | close (fd : Int)
deriving DecidableEq, Repr

/-- The write attempt an event stands for, if it is one. -/
def Event.attempt : Event → Option (Int × String)
  | .write fd data _ => some (fd, data)
  | _ => none

/-- The write attempts among some events: target and bytes, in order. -/
def attempts (events : List Event) : List (Int × String) :=
  events.filterMap Event.attempt

/-- Number of `write()` calls among some events. -/
def writeCount (events : List Event) : Nat :=
  (attempts events).length

/-- The results of the write calls among some events, in order. -/
def outcomes : List Event → List WriteResult
  | [] => []
  | .write _ _ result :: rest => result :: outcomes rest
  | _ :: rest => outcomes rest

/-- The events of a piece of code, and whether the process is still running
after it (`false`: a write raised `SIGPIPE`). -/
structure Effects where
  events : List Event
  alive : Bool
deriving DecidableEq, Repr

/-! ## `broadcastMessage` -/

/-- The `for` loop of `broadcastMessage` over the client list, `k` writes
having been made before: every entry whose fd differs from `senderFd` is
written `json_string`; a write that returns `-1` is reported with `perror`
and the loop goes on; a write that raises `SIGPIPE` ends the process. -/
def broadcastLoop (wr : Nat → WriteResult) (json_string : String) (senderFd : Int) :
    Nat → List Client → Effects
  | _, [] => { events := [], alive := true }
  | k, client :: rest =>
    if client.fd ≠ senderFd then
      match wr k with
      | .ok =>
        let r := broadcastLoop wr json_string senderFd (k + 1) rest
        { events := Event.write client.fd json_string .ok :: r.events, alive := r.alive }
      | .failed =>
        let r := broadcastLoop wr json_string senderFd (k + 1) rest
        { events := Event.write client.fd json_string .failed ::
            Event.perror "Error sending message to client" :: r.events,
          alive := r.alive }
      | .sigpipe =>
        { events := [Event.write client.fd json_string .sigpipe], alive := false }
    else
      broadcastLoop wr json_string senderFd k rest

/-- The function `broadcastMessage(clients, message, senderFd)`. -/
def broadcastMessage (lib : JsonLib) (wr : Nat → WriteResult) (k : Nat)
    (clients : List Client) (message : Json) (senderFd : Int) : Effects :=
  broadcastLoop wr (lib.dump message) senderFd k clients

/-! ## `registerClient` and `removeClient` -/

/-- The object built by `joinMessage["name"] = name; joinMessage["type"] = "join"`. -/
def joinMessage (name : String) : Json :=
  .object [("name", .string name), ("type", .string "join")]

/-- The object built by `disconnectMessage["name"] = name;
disconnectMessage["type"] = "disconnected"`. -/
def disconnectMessage (name : String) : Json :=
  .object [("name", .string name), ("type", .string "disconnected")]

/-- The function `registerClient(clientFd, name, clients)`: the new list and
the effects of the join broadcast. -/
def registerClient (lib : JsonLib) (wr : Nat → WriteResult) (k : Nat)
    (clientFd : Int) (name : String) (clients : List Client) :
    List Client × Effects :=
  let newClient : Client := { name := name, fd := clientFd }
  let clients := clients ++ [newClient]
  (clients, broadcastMessage lib wr k clients (joinMessage name) clientFd)

/-- The call `find_if(clients.begin(), clients.end(), fd == clientFd)`: the
position of the first entry with that fd, `none` for `clients.end()`. -/
def find_if (clientFd : Int) : List Client → Option Nat
  | [] => none
  | client :: rest =>
    if client.fd = clientFd then some 0
    else (find_if clientFd rest).map (· + 1)

/-- The call `clients.erase(it)`: the list without the entry at position `i`. -/
def erase : List Client → Nat → List Client
  | [], _ => []
  | _ :: rest, 0 => rest
  | client :: rest, i + 1 => client :: erase rest i

/-- The name of the entry at position `i` (`it->name`). -/
def nameAt : List Client → Nat → String
  | [], _ => ""
  | client :: _, 0 => client.name
  | _ :: rest, i + 1 => nameAt rest i

/-- The function `removeClient(clientFd, clients)`: the new list and the
effects. The entry is erased after the broadcast; when a write of the
broadcast ends the process the list is as it was. -/
def removeClient (lib : JsonLib) (wr : Nat → WriteResult) (k : Nat)
    (clientFd : Int) (clients : List Client) : List Client × Effects :=
  match find_if clientFd clients with
  | none => (clients, { events := [], alive := true })
  | some it =>
    let name := nameAt clients it
    let b := broadcastMessage lib wr k clients (disconnectMessage name) (-1)
    let events := Event.cout ("User " ++ name ++ " disconnected.") :: b.events
    if b.alive then (erase clients it, { events := events, alive := true })
    else (clients, { events := events, alive := false })

/-! ## `handleClientMessage` -/

/-- What one `read(clientFd, buffer, BUFF_SIZE)` reports. -/
inductive ReadResult where
  /-- The result `-1` with `EAGAIN` or `EWOULDBLOCK`. -/
  | wouldBlock
  /-- The result `-1` with another `errno`. -/
  | error
  /-- The result `0`: the peer closed. -/
  | eof
  /-- A count of bytes and the bytes read; with no bytes the count is `0`,
  the case `eof`. -/
  | data (payload : String)
deriving DecidableEq, Repr

/-- The condition `json_data.contains("type") && json_data["type"] == "register"`. -/
def isRegister (json_data : Json) : Except Exn Bool :=
  if json_data.contains "type" then
    (json_data.subscript "type").map (fun t => t.eqString "register")
  else
    .ok false

/-- The `try` block of `handleClientMessage` for the bytes of one read: the
new list and the effects, or the exception that leaves the block. -/
def tryBlock (lib : JsonLib) (wr : Nat → WriteResult) (k : Nat) (clientFd : Int)
    (clients : List Client) (payload : String) :
    Except Exn (List Client × Effects) :=
  match lib.parse payload with
  | .error e => .error e
  | .ok json_data =>
    match isRegister json_data with
    | .error e => .error e
    | .ok true =>
      match json_data.subscript "name" with
      | .error e => .error e
      | .ok nameJson =>
        match nameJson.getString with
        | .error e => .error e
        | .ok name => .ok (registerClient lib wr k clientFd name clients)
    | .ok false =>
      .ok (clients, broadcastMessage lib wr k clients json_data clientFd)

/-- The value `json_data` takes in the `try` block for the bytes of one
read, when `parse` returns. -/
def decodedOf (lib : JsonLib) (payload : String) : List Json :=
  match lib.parse payload with
  | .ok json_data => [json_data]
  | .error _ => []

/-- The ways a run of the server ends other than by returning. -/
inductive Fault where
  /-- An exception left `handleClientMessage`; `main` has no handler. -/
  | uncaught (e : Exn)
  /-- A write raised `SIGPIPE`. -/
  | sigpipe
  /-- The store `buffer[count] = 0` fell outside `buffer`. -/
  | overrun
deriving DecidableEq, Repr

/-- The result of a call of `handleClientMessage`: the client list, the
events performed, the values `json_data` took in the successive `try`
blocks (kept to state what each read was decoded to; not an effect), and
the fault that ended the run, if one did. -/
structure Outcome where
  clients : List Client
  events : List Event
  decoded : List Json
  ended : Option Fault

/-- Puts what happened earlier in front of an outcome. -/
def Outcome.after (events : List Event) (decoded : List Json) (o : Outcome) : Outcome :=
  { o with events := events ++ o.events, decoded := decoded ++ o.decoded }

/-- The two branches of `handleClientMessage` that end a connection:
`removeClient(clientFd, clients); close(clientFd); break;`, after the
events `before`. -/
def closeConnection (lib : JsonLib) (wr : Nat → WriteResult) (k : Nat)
    (clientFd : Int) (clients : List Client) (before : List Event) : Outcome :=
  let r := removeClient lib wr k clientFd clients
  if r.2.alive then
    { clients := r.1, events := before ++ (r.2.events ++ [Event.close clientFd]),
      decoded := [], ended := none }
  else
    { clients := r.1, events := before ++ r.2.events, decoded := [],
      ended := some .sigpipe }

/-- The function `handleClientMessage(epollFd, clientFd, clients)`, run on
the results of its successive reads, `k` writes having been made before. -/
def handleClientMessage (lib : JsonLib) (wr : Nat → WriteResult) (epollFd clientFd : Int) :
    Nat → List Client → List ReadResult → Outcome
  | _, clients, [] => { clients := clients, events := [], decoded := [], ended := none }
  | _, clients, .wouldBlock :: _ =>
    { clients := clients, events := [], decoded := [], ended := none }
  | k, clients, .error :: _ =>
    closeConnection lib wr k clientFd clients [Event.perror "read"]
  | k, clients, .eof :: _ =>
    closeConnection lib wr k clientFd clients []
  | k, clients, .data payload :: rest =>
    if payload.utf8ByteSize = 0 then
      closeConnection lib wr k clientFd clients []
    else if BUFF_SIZE ≤ payload.utf8ByteSize then
      { clients := clients, events := [], decoded := [], ended := some .overrun }
    else
      match tryBlock lib wr k clientFd clients payload with
      | .ok r =>
        if r.2.alive then
          (handleClientMessage lib wr epollFd clientFd (k + writeCount r.2.events)
            r.1 rest).after r.2.events (decodedOf lib payload)
        else
          { clients := r.1, events := r.2.events, decoded := decodedOf lib payload,
            ended := some .sigpipe }
      | .error .parse_error =>
        (handleClientMessage lib wr epollFd clientFd k clients rest).after
          [Event.cerr "Error parsing JSON"] (decodedOf lib payload)
      | .error e =>
        { clients := clients, events := [], decoded := decodedOf lib payload,
          ended := some (.uncaught e) }

/-! ## The event loop of `main` -/

/-- The `for` loop of `main` over the ready client sockets: each entry is a
ready fd with the results of the reads `handleClientMessage` makes on it.
(`handleNewConnection`, run for the listening socket, does not touch the
client list and is left out.) Once a fault has ended the run nothing more
happens. -/
def serverLoop (lib : JsonLib) (wr : Nat → WriteResult) (epollFd : Int) :
    Outcome → List (Int × List ReadResult) → Outcome
  | o, [] => o
  | o, (clientFd, reads) :: rest =>
    match o.ended with
    | some _ => o
    | none =>
      serverLoop lib wr epollFd
        ((handleClientMessage lib wr epollFd clientFd (writeCount o.events)
          o.clients reads).after o.events o.decoded) rest

/-- The server just after start: `vector<Client> clients;` is empty. -/
def Outcome.start : Outcome :=
  { clients := [], events := [], decoded := [], ended := none }

/-- The fds of the entries of a client list, in order. -/
def fds (clients : List Client) : List Int :=
  clients.map Client.fd

/-- A register or close event on a connection, as `registerClient` and
`removeClient` see it. -/
inductive RegistryEvent where
  | register (fd : Int) (name : String)
  | close (fd : Int)
deriving DecidableEq, Repr

/-- The client list after one register or close event. -/
def registryStep (lib : JsonLib) (wr : Nat → WriteResult) (clients : List Client) :
    RegistryEvent → List Client
  | .register fd name => (registerClient lib wr 0 fd name clients).1
  | .close fd => (removeClient lib wr 0 fd clients).1

/-- The client list after a sequence of register and close events, starting
from a given list. -/
def registryFrom (lib : JsonLib) (wr : Nat → WriteResult) (clients : List Client)
    (events : List RegistryEvent) : List Client :=
  events.foldl (registryStep lib wr) clients

/-- The client list after a sequence of register and close events, starting
from the empty list of a fresh server. -/
def registryAfter (lib : JsonLib) (wr : Nat → WriteResult) (events : List RegistryEvent) :
    List Client :=
  registryFrom lib wr [] events

/-- Holds when no register event of the sequence falls on an fd that has an
entry in the list at that moment. -/
def registersFresh (lib : JsonLib) (wr : Nat → WriteResult) :
    List Client → List RegistryEvent → Prop
  | _, [] => True
  | clients, .register fd name :: rest =>
    fd ∉ fds clients ∧
      registersFresh lib wr (registryStep lib wr clients (.register fd name)) rest
  | clients, .close fd :: rest =>
    registersFresh lib wr (registryStep lib wr clients (.close fd)) rest

/-! ## A reference codec

A small JSON reader and writer over the value domain above, used where a
statement needs concrete bytes. It covers objects, arrays, strings with the
short escapes, integers and the three literals, and reports any other text
as a `parse_error`; it writes compact text with object members in key
order, as `dump()` does. -/

/-- Code points the reader treats as white space. -/
def isSpace (c : Char) : Bool :=
  c.toNat = 32 || c.toNat = 10 || c.toNat = 13 || c.toNat = 9

/-- Drops leading white space. -/
def skipSpace : List Char → List Char
  | [] => []
  | c :: rest => if isSpace c then skipSpace rest else c :: rest

/-- Byte-wise order of two keys, the order of `std::map<std::string, _>`. -/
def keyLt : List Char → List Char → Bool
  | [], [] => false
  | [], _ :: _ => true
  | _ :: _, [] => false
  | a :: as, b :: bs =>
    if a.toNat < b.toNat then true
    else if b.toNat < a.toNat then false
    else keyLt as bs

/-- Stores a member in an object kept in key order; a key already present is
overwritten. -/
def insertMember (key : String) (value : Json) :
    List (String × Json) → List (String × Json)
  | [] => [(key, value)]
  | (k, w) :: rest =>
    if k = key then (key, value) :: rest
    else if keyLt key.toList k.toList then (key, value) :: (k, w) :: rest
    else (k, w) :: insertMember key value rest

/-- The character a short escape stands for. -/
def unescape (c : Char) : Option Char :=
  if c.toNat = 34 then some (Char.ofNat 34)
  else if c.toNat = 92 then some (Char.ofNat 92)
  else if c.toNat = 47 then some (Char.ofNat 47)
  else if c.toNat = 110 then some (Char.ofNat 10)
  else if c.toNat = 116 then some (Char.ofNat 9)
  else if c.toNat = 114 then some (Char.ofNat 13)
  else none

/-- Reads a string body up to its closing quote; `acc` holds the characters
read so far, last first. -/
def readString : Nat → List Char → List Char → Option (String × List Char)
  | 0, _, _ => none
  | _ + 1, [], _ => none
  | fuel + 1, c :: rest, acc =>
    if c.toNat = 34 then some (String.mk acc.reverse, rest)
    else if c.toNat = 92 then
      match rest with
      | [] => none
      | e :: rest2 =>
        match unescape e with
        | none => none
        | some ch => readString fuel rest2 (ch :: acc)
    else if c.toNat < 32 then none
    else readString fuel rest (c :: acc)

/-- Reads a run of decimal digits onto `acc`. -/
def readDigits : List Char → Nat → Nat × List Char
  | [], acc => (acc, [])
  | c :: rest, acc =>
    if 48 ≤ c.toNat && c.toNat ≤ 57 then readDigits rest (acc * 10 + (c.toNat - 48))
    else (acc, c :: rest)

/-- Reads the digits of an integer after an optional sign; a leading zero
must stand alone, and fractions and exponents are not covered. -/
def readNat : List Char → Option (Nat × List Char)
  | [] => none
  | c :: rest =>
    if c.toNat = 48 then
      match rest with
      | d :: _ =>
        if (48 ≤ d.toNat && d.toNat ≤ 57) || d.toNat = 46 || d.toNat = 101 || d.toNat = 69
        then none else some (0, rest)
      | [] => some (0, rest)
    else if 49 ≤ c.toNat && c.toNat ≤ 57 then
      match readDigits (c :: rest) 0 with
      | (n, d :: rest2) =>
        if d.toNat = 46 || d.toNat = 101 || d.toNat = 69 then none
        else some (n, d :: rest2)
      | (n, []) => some (n, [])
    else none

/-- Reads one of the literals `true`, `false`, `null`. -/
def readLiteral (cs : List Char) : Option (Json × List Char) :=
  if cs.take 4 = "true".toList then some (.boolean true, cs.drop 4)
  else if cs.take 4 = "null".toList then some (.null, cs.drop 4)
  else if cs.take 5 = "false".toList then some (.boolean false, cs.drop 5)
  else none

mutual
/-- Reads one JSON value and returns it with the unread rest. -/
def readValue : Nat → List Char → Option (Json × List Char)
  | 0, _ => none
  | fuel + 1, cs =>
    match skipSpace cs with
    | [] => none
    | c :: rest =>
      if c.toNat = 123 then
        match skipSpace rest with
        | d :: rest2 =>
          if d.toNat = 125 then some (.object [], rest2)
          else readMembers fuel (d :: rest2) []
        | [] => none
      else if c.toNat = 91 then
        match skipSpace rest with
        | d :: rest2 =>
          if d.toNat = 93 then some (.array [], rest2)
          else readItems fuel (d :: rest2) []
        | [] => none
      else if c.toNat = 34 then
        (readString fuel rest []).map (fun r => (Json.string r.1, r.2))
      else if c.toNat = 45 then
        (readNat rest).map (fun r => (Json.number (-(r.1 : Int)), r.2))
      else if 48 ≤ c.toNat && c.toNat ≤ 57 then
        (readNat (c :: rest)).map (fun r => (Json.number (r.1 : Int), r.2))
      else readLiteral (c :: rest)
/-- Reads the members of an object after its opening brace. -/
def readMembers : Nat → List Char → List (String × Json) → Option (Json × List Char)
  | 0, _, _ => none
  | fuel + 1, cs, acc =>
    match skipSpace cs with
    | [] => none
    | q :: rest =>
      if q.toNat = 34 then
        match readString fuel rest [] with
        | none => none
        | some (key, r1) =>
          match skipSpace r1 with
          | [] => none
          | colon :: r2 =>
            if colon.toNat = 58 then
              match readValue fuel r2 with
              | none => none
              | some (v, r3) =>
                match skipSpace r3 with
                | [] => none
                | d :: r4 =>
                  if d.toNat = 44 then readMembers fuel r4 (insertMember key v acc)
                  else if d.toNat = 125 then some (.object (insertMember key v acc), r4)
                  else none
            else none
      else none
/-- Reads the items of an array after its opening bracket; `acc` holds the
items read so far, last first. -/
def readItems : Nat → List Char → List Json → Option (Json × List Char)
  | 0, _, _ => none
  | fuel + 1, cs, acc =>
    match readValue fuel cs with
    | none => none
    | some (v, r1) =>
      match skipSpace r1 with
      | [] => none
      | d :: r2 =>
        if d.toNat = 44 then readItems fuel r2 (v :: acc)
        else if d.toNat = 93 then some (.array (v :: acc).reverse, r2)
        else none
end

/-- The reference `parse`: one JSON value, white space around it, nothing
else. -/
def referenceParse (text : String) : Except Exn Json :=
  match readValue (text.length + 1) text.toList with
  | none => .error .parse_error
  | some (j, rest) => if skipSpace rest = [] then .ok j else .error .parse_error

/-- Writes the characters of a string body with the short escapes. -/
def writeChars : List Char → List Char
  | [] => []
  | c :: rest =>
    if c.toNat = 34 then Char.ofNat 92 :: Char.ofNat 34 :: writeChars rest
    else if c.toNat = 92 then Char.ofNat 92 :: Char.ofNat 92 :: writeChars rest
    else if c.toNat = 10 then Char.ofNat 92 :: Char.ofNat 110 :: writeChars rest
    else if c.toNat = 9 then Char.ofNat 92 :: Char.ofNat 116 :: writeChars rest
    else if c.toNat = 13 then Char.ofNat 92 :: Char.ofNat 114 :: writeChars rest
    else c :: writeChars rest

/-- Writes a quoted string. -/
def writeString (s : String) : List Char :=
  Char.ofNat 34 :: (writeChars s.toList ++ [Char.ofNat 34])

mutual
/-- Writes a value as compact JSON text. -/
def writeValue : Json → List Char
  | .null => "null".toList
  | .boolean b => if b then "true".toList else "false".toList
  | .number n => (toString n).toList
  | .string s => writeString s
  | .array items => Char.ofNat 91 :: (writeItems items ++ [Char.ofNat 93])
  | .object members => Char.ofNat 123 :: (writeMembers members ++ [Char.ofNat 125])
/-- Writes array items separated by commas. -/
def writeItems : List Json → List Char
  | [] => []
  | [x] => writeValue x
  | x :: y :: rest => writeValue x ++ Char.ofNat 44 :: writeItems (y :: rest)
/-- Writes object members separated by commas. -/
def writeMembers : List (String × Json) → List Char
  | [] => []
  | [(k, v)] => writeString k ++ Char.ofNat 58 :: writeValue v
  | (k, v) :: m :: rest =>
    writeString k ++ Char.ofNat 58 :: (writeValue v ++ Char.ofNat 44 :: writeMembers (m :: rest))
end

/-- The reference `dump`. -/
def referenceDump (j : Json) : String :=
  String.mk (writeValue j)

/-- The reference codec as a `JsonLib`. -/
def referenceLib : JsonLib :=
  { parse := referenceParse, dump := referenceDump }


/-! ## Sample data -/

/-- A client named Alice on fd 5. -/
def alice : Client := { name := "Alice", fd := 5 }

/-- A client named Bob on fd 6. -/
def bob : Client := { name := "Bob", fd := 6 }

/-- A client named Carol on fd 7. -/
def carol : Client := { name := "Carol", fd := 7 }

/-- The chat message the client of Alice sends for the line `hi` at 10:00
(`sendMessage` of `client.cpp`). -/
def chatHi : Json :=
  .object [("message", .string "hi"), ("name", .string "Alice"), ("time", .string "10:00")]

/-- The bytes of `chatHi`. -/
def chatHiText : String :=
  "\x7b\"message\":\"hi\",\"name\":\"Alice\",\"time\":\"10:00\"\x7d"

/-- The bytes of `chatHi` followed by spaces up to 1024 bytes: JSON text of
exactly `BUFF_SIZE` bytes. -/
def chatHiPadded : String :=
  chatHiText ++ String.mk (List.replicate 978 (Char.ofNat 32))

/-- The bytes of `registerAlice`. -/
def registerAliceText : String :=
  "\x7b\"name\":\"Alice\",\"type\":\"register\"\x7d"

/-- The bytes of the register message of a client named Bob. -/
def registerBobText : String :=
  "\x7b\"name\":\"Bob\",\"type\":\"register\"\x7d"

/-- The bytes of a register message without a name. -/
def registerNoNameText : String :=
  "\x7b\"type\":\"register\"\x7d"

/-- The bytes of a chat message of Bob. -/
def chatBobText : String :=
  "\x7b\"message\":\"yo\",\"name\":\"Bob\",\"time\":\"10:01\"\x7d"

/-- The bytes of the disconnect notice for Alice. -/
def disconnectAliceText : String :=
  "\x7b\"name\":\"Alice\",\"type\":\"disconnected\"\x7d"

/-- The bytes of the join notice for Alice. -/
def joinAliceText : String :=
  "\x7b\"name\":\"Alice\",\"type\":\"join\"\x7d"

/-- The bytes of the join notice for Bob. -/
def joinBobText : String :=
  "\x7b\"name\":\"Bob\",\"type\":\"join\"\x7d"

/-- The oracle under which every write returns its count. -/
def allOk : Nat → WriteResult := fun _ => .ok

/-- The oracle under which the next write raises `SIGPIPE` (its peer has
gone) and every other write returns its count. -/
def firstBroken : Nat → WriteResult := fun k => if k = 0 then .sigpipe else .ok

/-- The oracle under which the next write returns `-1` and every other
write returns its count. -/
def firstFailed : Nat → WriteResult := fun k => if k = 0 then .failed else .ok

/-! ## Lemmas on `broadcastMessage` -/

/-- The write attempts of the broadcast loop are always the first of the
entries whose fd differs from `senderFd`, each with the serialized message,
in list order. -/
theorem attempts_broadcastLoop_initial (wr : Nat → WriteResult) (json_string : String)
    (senderFd : Int) (clients : List Client) (k : Nat) :
    attempts (broadcastLoop wr json_string senderFd k clients).events <+:
      (clients.filter (fun c => decide (c.fd ≠ senderFd))).map
        (fun c => (c.fd, json_string)) := by
  induction clients generalizing k with
  | nil => simp [broadcastLoop, attempts]
  | cons c rest ih =>
    by_cases hc : c.fd = senderFd
    · simpa [broadcastLoop, hc] using ih k
    · cases hw : wr k with
      | ok =>
        simp only [broadcastLoop, hc, hw, ne_eq, not_false_eq_true, if_true, attempts,
          List.filterMap_cons, Event.attempt, List.filter_cons, decide_True, List.map_cons]
        exact (List.prefix_cons_inj _).mpr (ih (k + 1))
      | failed =>
        simp only [broadcastLoop, hc, hw, ne_eq, not_false_eq_true, if_true, attempts,
          List.filterMap_cons, Event.attempt, List.filter_cons, decide_True, List.map_cons]
        exact (List.prefix_cons_inj _).mpr (ih (k + 1))
      | sigpipe =>
        simp only [broadcastLoop, hc, hw, ne_eq, not_false_eq_true, if_true, attempts,
          List.filterMap_cons, Event.attempt, List.filter_cons, decide_True, List.map_cons,
          List.filterMap_nil]
        exact (List.prefix_cons_inj _).mpr List.nil_prefix

/-- When no write raises `SIGPIPE` the broadcast loop returns, its write
attempts are all the entries whose fd differs from `senderFd`, in list
order, and the results recorded are those of the successive writes. -/
theorem broadcastLoop_no_sigpipe (wr : Nat → WriteResult) (json_string : String)
    (senderFd : Int) (clients : List Client) (k : Nat)
    (hlive : ∀ i, wr i ≠ .sigpipe) :
    (broadcastLoop wr json_string senderFd k clients).alive = true ∧
      attempts (broadcastLoop wr json_string senderFd k clients).events =
        (clients.filter (fun c => decide (c.fd ≠ senderFd))).map
          (fun c => (c.fd, json_string)) ∧
      outcomes (broadcastLoop wr json_string senderFd k clients).events =
        (List.range (clients.filter (fun c => decide (c.fd ≠ senderFd))).length).map
          (fun i => wr (k + i)) := by
  induction clients generalizing k with
  | nil => simp [broadcastLoop, attempts, outcomes]
  | cons c rest ih =>
    obtain ⟨h1, h2, h3⟩ := ih (k + 1)
    by_cases hc : c.fd = senderFd
    · simpa [broadcastLoop, hc] using ih k
    · have hshift : List.map (fun i => wr (k + 1 + i)) (List.range
          (rest.filter (fun c => decide (c.fd ≠ senderFd))).length) =
          List.map ((fun i => wr (k + i)) ∘ Nat.succ) (List.range
          (rest.filter (fun c => decide (c.fd ≠ senderFd))).length) := by
        apply List.map_congr_left
        intro a _
        simp only [Function.comp]
        congr 1
        omega
      cases hw : wr k with
      | ok =>
        simp only [broadcastLoop, hc, hw, ne_eq, not_false_eq_true, if_true, attempts,
          List.filterMap_cons, Event.attempt, List.filter_cons, decide_True, List.map_cons,
          outcomes, List.length_cons, List.range_succ_eq_map, Nat.add_zero, List.map_map]
        refine ⟨h1, ?_, ?_⟩
        · rw [← h2]; rfl
        · rw [h3, hshift]
      | failed =>
        simp only [broadcastLoop, hc, hw, ne_eq, not_false_eq_true, if_true, attempts,
          List.filterMap_cons, Event.attempt, List.filter_cons, decide_True, List.map_cons,
          outcomes, List.length_cons, List.range_succ_eq_map, Nat.add_zero, List.map_map]
        refine ⟨h1, ?_, ?_⟩
        · rw [← h2]; rfl
        · rw [h3, hshift]
      | sigpipe => exact absurd hw (hlive k)

/-- No write of a broadcast goes to the excluded fd. -/
theorem sender_not_in_attempts (lib : JsonLib) (wr : Nat → WriteResult) (k : Nat)
    (clients : List Client) (message : Json) (senderFd : Int) (data : String) :
    (senderFd, data) ∉
      attempts (broadcastMessage lib wr k clients message senderFd).events := by
  intro hmem
  have hsub := (attempts_broadcastLoop_initial wr (lib.dump message) senderFd clients k).subset
    hmem
  simp only [List.mem_map, List.mem_filter] at hsub
  obtain ⟨c, hc, heq⟩ := hsub
  have h1 : c.fd = senderFd := congrArg Prod.fst heq
  simp [h1] at hc

/-- When no write raises `SIGPIPE`, `broadcastMessage` returns, having
attempted one write of the serialized message to every entry whose fd is
not the excluded one, in list order; a write that returns `-1` does not
stop it. -/
theorem broadcast_when_no_sigpipe (lib : JsonLib) (wr : Nat → WriteResult) (k : Nat)
    (clients : List Client) (message : Json) (senderFd : Int)
    (hlive : ∀ i, wr i ≠ .sigpipe) :
    (broadcastMessage lib wr k clients message senderFd).alive = true ∧
      attempts (broadcastMessage lib wr k clients message senderFd).events =
        (clients.filter (fun c => decide (c.fd ≠ senderFd))).map
          (fun c => (c.fd, lib.dump message)) ∧
      outcomes (broadcastMessage lib wr k clients message senderFd).events =
        (List.range (clients.filter (fun c => decide (c.fd ≠ senderFd))).length).map
          (fun i => wr (k + i)) :=
  broadcastLoop_no_sigpipe wr (lib.dump message) senderFd clients k hlive

/-- A broadcast that excludes `-1` with no write raising `SIGPIPE` writes to
every entry when no fd is negative. -/
theorem attempts_broadcast_all (lib : JsonLib) (wr : Nat → WriteResult) (k : Nat)
    (clients : List Client) (message : Json) (hfd : ∀ x ∈ clients, 0 ≤ x.fd)
    (hlive : ∀ i, wr i ≠ .sigpipe) :
    attempts (broadcastMessage lib wr k clients message (-1)).events =
      clients.map (fun c => (c.fd, lib.dump message)) := by
  rw [(broadcast_when_no_sigpipe lib wr k clients message (-1) hlive).2.1]
  congr 1
  rw [List.filter_eq_self]
  intro x hx
  have := hfd x hx
  simp
  omega

/-- When `find_if` finds a position, the list splits there: the entries
before it have other fds, the entry at it has the fd, `erase` joins the two
sides and `nameAt` reads the name of that entry. -/
theorem find_if_some (clientFd : Int) (clients : List Client) (it : Nat)
    (h : find_if clientFd clients = some it) :
    ∃ l1 x l2, clients = l1 ++ x :: l2 ∧ x.fd = clientFd ∧
      (∀ y ∈ l1, y.fd ≠ clientFd) ∧ erase clients it = l1 ++ l2 ∧
      nameAt clients it = x.name := by
  induction clients generalizing it with
  | nil => simp [find_if] at h
  | cons c rest ih =>
    by_cases hc : c.fd = clientFd
    · simp [find_if, hc] at h
      subst h
      exact ⟨[], c, rest, rfl, hc, by simp, rfl, rfl⟩
    · simp only [find_if, hc, if_false, Option.map_eq_some'] at h
      obtain ⟨i, hi, rfl⟩ := h
      obtain ⟨l1, x, l2, h1, h2, h3, h4, h5⟩ := ih i hi
      refine ⟨c :: l1, x, l2, by simp [h1], h2, ?_, by simp [erase, h4], by simp [nameAt, h5]⟩
      intro y hy
      rcases List.mem_cons.mp hy with rfl | hy
      · exact hc
      · exact h3 y hy

/-- The search `find_if` fails exactly when no entry has the fd. -/
theorem find_if_none (clientFd : Int) (clients : List Client) :
    find_if clientFd clients = none ↔ ∀ y ∈ clients, y.fd ≠ clientFd := by
  induction clients with
  | nil => simp [find_if]
  | cons c rest ih =>
    by_cases hc : c.fd = clientFd
    · simp [find_if, hc]
    · simp [find_if, hc, ih]

/-- What `removeClient` does when the list has an entry for `c`, no fd is
negative and no write raises `SIGPIPE`: the list splits at the first entry
with fd `c`, that entry is taken out, and the disconnect message with its
name is written to every entry of the list as it was. -/
theorem removeClient_found (lib : JsonLib) (wr : Nat → WriteResult)
    (k : Nat) (c : Int) (clients : List Client)
    (hmem : c ∈ fds clients) (hfd : ∀ x ∈ clients, 0 ≤ x.fd)
    (hlive : ∀ i, wr i ≠ .sigpipe) :
    ∃ l1 x l2, clients = l1 ++ x :: l2 ∧ x.fd = c ∧ (∀ y ∈ l1, y.fd ≠ c) ∧
      (removeClient lib wr k c clients).1 = l1 ++ l2 ∧
      (removeClient lib wr k c clients).2.alive = true ∧
      attempts (removeClient lib wr k c clients).2.events =
        clients.map (fun y => (y.fd, lib.dump
          (.object [("name", .string x.name), ("type", .string "disconnected")]))) := by
  cases hf : find_if c clients with
  | none =>
    exfalso
    obtain ⟨y, hy, hyc⟩ := List.mem_map.mp hmem
    exact (find_if_none c clients).mp hf y hy hyc
  | some it =>
    obtain ⟨l1, x, l2, h1, h2, h3, h4, h5⟩ := find_if_some c clients it hf
    have halive := (broadcast_when_no_sigpipe lib wr k clients
      (disconnectMessage x.name) (-1) hlive).1
    refine ⟨l1, x, l2, h1, h2, h3, ?_, ?_, ?_⟩
    · simp [removeClient, hf, h4, h5, halive]
    · simp [removeClient, hf, h5, halive]
    · simp only [removeClient, hf, h5, halive, if_true]
      simp only [attempts, List.filterMap_cons, Event.attempt]
      exact attempts_broadcast_all lib wr k clients _ hfd hlive

/-! ## Lemmas on `handleClientMessage` -/

/-- One turn of the loop of `handleClientMessage` on a read of at least one
and fewer than `BUFF_SIZE` bytes whose `try` block completes with the
process running: the events and the decoded value of the turn come first,
then the handler goes on with the next read. -/
theorem handle_data_step (lib : JsonLib) (wr : Nat → WriteResult) (epollFd A : Int)
    (k : Nat) (clients : List Client) (payload : String) (j : Json)
    (r : List Client × Effects) (rest : List ReadResult)
    (hsize : 0 < payload.utf8ByteSize ∧ payload.utf8ByteSize < BUFF_SIZE)
    (hparse : lib.parse payload = .ok j)
    (htry : tryBlock lib wr k A clients payload = .ok r)
    (halive : r.2.alive = true) :
    handleClientMessage lib wr epollFd A k clients (.data payload :: rest) =
      (handleClientMessage lib wr epollFd A (k + writeCount r.2.events) r.1 rest).after
        r.2.events [j] := by
  have h0 : ¬ payload.utf8ByteSize = 0 := by omega
  have h1 : ¬ BUFF_SIZE ≤ payload.utf8ByteSize := by omega
  simp [handleClientMessage, h0, h1, htry, halive, decodedOf, hparse]

/-- The `try` block on a payload that parses to a message that is not a
register message: the broadcast of the message with the sender excluded. -/
theorem tryBlock_chat (lib : JsonLib) (wr : Nat → WriteResult) (k : Nat) (A : Int)
    (clients : List Client) (payload : String) (j : Json)
    (hparse : lib.parse payload = .ok j) (hchat : isRegister j = .ok false) :
    tryBlock lib wr k A clients payload =
      .ok (clients, broadcastMessage lib wr k clients j A) := by
  simp [tryBlock, hparse, hchat]

/-- A read of at least one and fewer than `BUFF_SIZE` bytes that parses to a
message that is not a register message, with no write raising `SIGPIPE`:
the handler returns with the client list unchanged, having decoded the
message and attempted a write of it to every entry whose fd is not the
sender's, in list order, and none to the sender. -/
theorem chat_read_relayed (lib : JsonLib) (wr : Nat → WriteResult) (epollFd A : Int)
    (k : Nat) (clients : List Client) (payload : String) (j : Json)
    (hsize : 0 < payload.utf8ByteSize ∧ payload.utf8ByteSize < BUFF_SIZE)
    (hparse : lib.parse payload = .ok j) (hchat : isRegister j = .ok false)
    (hlive : ∀ i, wr i ≠ .sigpipe) :
    (handleClientMessage lib wr epollFd A k clients [.data payload]).clients = clients ∧
      (handleClientMessage lib wr epollFd A k clients [.data payload]).ended = none ∧
      (handleClientMessage lib wr epollFd A k clients [.data payload]).decoded = [j] ∧
      attempts (handleClientMessage lib wr epollFd A k clients [.data payload]).events =
        (clients.filter (fun c => decide (c.fd ≠ A))).map (fun c => (c.fd, lib.dump j)) ∧
      ∀ data, (A, data) ∉
        attempts (handleClientMessage lib wr epollFd A k clients [.data payload]).events := by
  obtain ⟨ha, hb, _⟩ := broadcast_when_no_sigpipe lib wr k clients j A hlive
  have hstep := handle_data_step lib wr epollFd A k clients payload j _ [] hsize hparse
    (tryBlock_chat lib wr k A clients payload j hparse hchat) ha
  rw [hstep]
  have hev : ((handleClientMessage lib wr epollFd A
      (k + writeCount (broadcastMessage lib wr k clients j A).events) clients []).after
      (broadcastMessage lib wr k clients j A).events [j]).events =
      (broadcastMessage lib wr k clients j A).events := by
    simp [handleClientMessage, Outcome.after]
  refine ⟨rfl, rfl, rfl, ?_, ?_⟩
  · rw [hev]
    exact hb
  · intro data
    rw [hev]
    exact sender_not_in_attempts lib wr k clients j A data

/-- When the list has an entry for `c`, no fd is negative and no write
raises `SIGPIPE`, `removeClient(c)` attempts the write of the object with
type `disconnected` and the name of the first entry with fd `c` to every
entry of the list as it was before the removal, `c` included; the new list
is the old one without that first entry, the other entries in their order. -/
theorem disconnect_notice_when_alive (lib : JsonLib) (wr : Nat → WriteResult)
    (k : Nat) (c : Int) (clients : List Client)
    (hmem : c ∈ fds clients) (hfd : ∀ x ∈ clients, 0 ≤ x.fd)
    (hlive : ∀ i, wr i ≠ .sigpipe) :
    ∃ l1 x l2, clients = l1 ++ x :: l2 ∧ x.fd = c ∧ (∀ y ∈ l1, y.fd ≠ c) ∧
      (removeClient lib wr k c clients).1 = l1 ++ l2 ∧
      attempts (removeClient lib wr k c clients).2.events =
        clients.map (fun y => (y.fd, lib.dump
          (.object [("name", .string x.name), ("type", .string "disconnected")]))) ∧
      (c, lib.dump (.object [("name", .string x.name), ("type", .string "disconnected")])) ∈
        attempts (removeClient lib wr k c clients).2.events := by
  obtain ⟨l1, x, l2, h1, h2, h3, h4, _, h5⟩ :=
    removeClient_found lib wr k c clients hmem hfd hlive
  refine ⟨l1, x, l2, h1, h2, h3, h4, h5, ?_⟩
  rw [h5, h1]
  simp [h2]

/-! ## Writes that end the process -/

/-- C8, failing input. Bob (fd 6) and Carol (fd 7) are listed and the peer
of fd 6 is gone: the write to fd 6 raises `SIGPIPE`, `broadcastMessage` does
not return and fd 7 is never written; the server ends inside the handler.
When the same write only returns `-1`, the failure is reported and fd 7 is
written. -/
theorem broadcast_ends_at_sigpipe :
    broadcastMessage referenceLib firstBroken 0 [bob, carol] chatHi 5 =
        { events := [Event.write 6 chatHiText .sigpipe], alive := false } ∧
      (7, chatHiText) ∉
        attempts (broadcastMessage referenceLib firstBroken 0 [bob, carol] chatHi 5).events ∧
      broadcastMessage referenceLib firstFailed 0 [bob, carol] chatHi 5 =
        { events := [Event.write 6 chatHiText .failed,
            Event.perror "Error sending message to client",
            Event.write 7 chatHiText .ok],
          alive := true } ∧
      (serverLoop referenceLib firstBroken 3
        { clients := [bob, carol], events := [], decoded := [], ended := none }
        [(5, [.data chatHiText]), (7, [.data chatBobText])]).events =
        [Event.write 6 chatHiText .sigpipe] ∧
      (serverLoop referenceLib firstBroken 3
        { clients := [bob, carol], events := [], decoded := [], ended := none }
        [(5, [.data chatHiText]), (7, [.data chatBobText])]).ended = some .sigpipe := by
  refine ⟨by decide, by decide, by decide, by decide, by decide⟩

/-- C1, failing input. Alice (fd 5) sends a chat while Alice, Bob (fd 6) and
Carol (fd 7) are listed and the peer of fd 6 is gone: the write to fd 6
raises `SIGPIPE`, the process ends and fd 7 is never written the message.
A chat of exactly `BUFF_SIZE` bytes (the same message followed by spaces)
is not relayed either: the store after the read falls outside the buffer. -/
theorem chat_relay_cut_short :
    (handleClientMessage referenceLib firstBroken 3 5 0 [alice, bob, carol]
        [.data chatHiText]).events = [Event.write 6 chatHiText .sigpipe] ∧
      (handleClientMessage referenceLib firstBroken 3 5 0 [alice, bob, carol]
        [.data chatHiText]).ended = some .sigpipe ∧
      (7, chatHiText) ∉ attempts (handleClientMessage referenceLib firstBroken 3 5 0
        [alice, bob, carol] [.data chatHiText]).events ∧
      chatHiPadded.utf8ByteSize = BUFF_SIZE ∧
      referenceLib.parse chatHiPadded = .ok chatHi ∧
      (handleClientMessage referenceLib allOk 3 5 0 [alice, bob, carol]
        [.data chatHiPadded]).events = [] ∧
      (handleClientMessage referenceLib allOk 3 5 0 [alice, bob, carol]
        [.data chatHiPadded]).ended = some .overrun := by
  set_option maxRecDepth 100000 in
  refine ⟨by decide, by decide, by decide, by decide, by rfl, by decide, by decide⟩

/-- C5, failing input. Fd 5 registers as Alice while Bob (fd 6) and Carol
(fd 7) are listed and the peer of fd 6 is gone: the entry is appended, the
write of the join notice to fd 6 raises `SIGPIPE`, the process ends and
fd 7 is never written the notice. -/
theorem join_notice_cut_short :
    registerClient referenceLib firstBroken 0 5 "Alice" [bob, carol] =
        ([bob, carol, alice],
          { events := [Event.write 6 joinAliceText .sigpipe], alive := false }) ∧
      (7, joinAliceText) ∉ attempts
        (registerClient referenceLib firstBroken 0 5 "Alice" [bob, carol]).2.events ∧
      (handleClientMessage referenceLib firstBroken 3 5 0 [bob, carol]
        [.data registerAliceText]).events = [Event.write 6 joinAliceText .sigpipe] ∧
      (handleClientMessage referenceLib firstBroken 3 5 0 [bob, carol]
        [.data registerAliceText]).ended = some .sigpipe := by
  refine ⟨by decide, by decide, by decide, by decide⟩

/-- C10, failing input. The read on fd 5 fails (the peer has reset the
connection) while Alice (fd 5) and Bob (fd 6) are listed: `removeClient(5)`
writes the disconnect notice to fd 5 first, that write raises `SIGPIPE` and
the process ends: fd 6 is never written, the entry of fd 5 is not erased
and fd 5 is not closed. -/
theorem disconnect_notice_ends_process :
    removeClient referenceLib firstBroken 0 5 [alice, bob] =
        ([alice, bob],
          { events := [Event.cout "User Alice disconnected.",
              Event.write 5 disconnectAliceText .sigpipe],
            alive := false }) ∧
      (6, disconnectAliceText) ∉ attempts
        (removeClient referenceLib firstBroken 0 5 [alice, bob]).2.events ∧
      (handleClientMessage referenceLib firstBroken 3 5 0 [alice, bob] [.error]).clients =
        [alice, bob] ∧
      (handleClientMessage referenceLib firstBroken 3 5 0 [alice, bob] [.error]).events =
        [Event.perror "read", Event.cout "User Alice disconnected.",
          Event.write 5 disconnectAliceText .sigpipe] ∧
      (handleClientMessage referenceLib firstBroken 3 5 0 [alice, bob] [.error]).ended =
        some .sigpipe := by
  refine ⟨by decide, by decide, by decide, by decide, by decide⟩

/-! ## Chat from a connection that has not registered -/

/-- C4, counterexample. Fd 5 has no entry in a list holding only Bob (fd 6);
it sends a chat message; the message is written to Bob. -/
theorem chat_before_register_counterexample :
    (∀ x ∈ [bob], x.fd ≠ 5) ∧
      referenceLib.parse chatHiText = .ok chatHi ∧
      isRegister chatHi = .ok false ∧
      attempts (handleClientMessage referenceLib allOk 3 5 0 [bob]
        [.data chatHiText]).events = [(6, chatHiText)] ∧
      attempts (handleClientMessage referenceLib allOk 3 5 0 [bob]
        [.data chatHiText]).events ≠ [] := by
  refine ⟨by decide, rfl, rfl, by decide, by decide⟩

/-- C4, amended. When a read from a connection `c` that has no entry in the
client list yields at least one and fewer than `BUFF_SIZE` bytes that parse
to a message that is not a register message, and no write raises
`SIGPIPE`, the handler returns with the client list unchanged and the
message is relayed: a write of it is attempted to every entry of the list,
in list order. -/
theorem chat_before_register_relayed (lib : JsonLib) (wr : Nat → WriteResult)
    (epollFd c : Int) (k : Nat) (clients : List Client) (payload : String) (j : Json)
    (hno : ∀ x ∈ clients, x.fd ≠ c)
    (hsize : 0 < payload.utf8ByteSize ∧ payload.utf8ByteSize < BUFF_SIZE)
    (hparse : lib.parse payload = .ok j) (hchat : isRegister j = .ok false)
    (hlive : ∀ i, wr i ≠ .sigpipe) :
    (handleClientMessage lib wr epollFd c k clients [.data payload]).clients = clients ∧
      (handleClientMessage lib wr epollFd c k clients [.data payload]).ended = none ∧
      attempts (handleClientMessage lib wr epollFd c k clients [.data payload]).events =
        clients.map (fun x => (x.fd, lib.dump j)) := by
  obtain ⟨h1, h2, _, h4, _⟩ :=
    chat_read_relayed lib wr epollFd c k clients payload j hsize hparse hchat hlive
  refine ⟨h1, h2, ?_⟩
  rw [h4]
  congr 1
  rw [List.filter_eq_self]
  intro x hx
  simpa using hno x hx

/-- Witness for C4 as amended: the chat of the unlisted fd 5 is written to
Bob and Carol. -/
theorem chat_before_register_relayed_witness :
    ((handleClientMessage referenceLib allOk 3 5 0 [bob, carol]
        [.data chatHiText]).clients = [bob, carol] ∧
      (handleClientMessage referenceLib allOk 3 5 0 [bob, carol]
        [.data chatHiText]).ended = none ∧
      attempts (handleClientMessage referenceLib allOk 3 5 0 [bob, carol]
        [.data chatHiText]).events =
        [bob, carol].map (fun x => (x.fd, referenceLib.dump chatHi))) ∧
      [bob, carol].map (fun x => (x.fd, referenceLib.dump chatHi)) =
        [(6, chatHiText), (7, chatHiText)] :=
  ⟨chat_before_register_relayed referenceLib allOk 3 5 0 [bob, carol] chatHiText chatHi
    (by decide) (by decide) rfl rfl (by intro i; simp [allOk]), by decide⟩

/-! ## Message boundaries -/

/-- Registering on an fd that already has an entry adds a second entry. -/
theorem registerClient_duplicates (lib : JsonLib) (wr : Nat → WriteResult) (k : Nat)
    (c : Int) (n : String) (L : List Client) (hmem : c ∈ fds L) :
    ¬ (fds (registerClient lib wr k c n L).1).Nodup := by
  simp only [registerClient, fds, List.map_append, List.map_cons, List.map_nil]
  intro hnd
  rw [List.nodup_append] at hnd
  exact hnd.2.2 hmem (by simp)

/-- Registering on an fd without an entry keeps the fds distinct. -/
theorem registerClient_nodup (lib : JsonLib) (wr : Nat → WriteResult) (k : Nat)
    (c : Int) (n : String) (L : List Client) (hnd : (fds L).Nodup)
    (hfresh : c ∉ fds L) :
    (fds (registerClient lib wr k c n L).1).Nodup := by
  simp only [registerClient, fds, List.map_append, List.map_cons, List.map_nil]
  rw [List.nodup_append]
  refine ⟨hnd, by simp, ?_⟩
  intro a ha hb
  simp only [List.mem_singleton] at hb
  subst hb
  exact hfresh ha

/-- Removing keeps the fds distinct, and with distinct fds no entry for the
closed fd is left once `removeClient` has returned. -/
theorem removeClient_nodup (lib : JsonLib) (wr : Nat → WriteResult) (k : Nat)
    (c : Int) (L : List Client) (hnd : (fds L).Nodup) :
    (fds (removeClient lib wr k c L).1).Nodup ∧
      ((removeClient lib wr k c L).2.alive = true → c ∉ fds (removeClient lib wr k c L).1) := by
  cases hf : find_if c L with
  | none =>
    simp only [removeClient, hf]
    refine ⟨hnd, ?_⟩
    intro _ hmem
    obtain ⟨y, hy, hyc⟩ := List.mem_map.mp hmem
    exact (find_if_none c L).mp hf y hy hyc
  | some it =>
    obtain ⟨l1, x, l2, h1, h2, h3, h4, _⟩ := find_if_some c L it hf
    cases hb : (broadcastMessage lib wr k L (disconnectMessage (nameAt L it)) (-1)).alive with
    | false => simp [removeClient, hf, hb, hnd]
    | true =>
      simp only [removeClient, hf, hb, h4, if_true]
      subst h1
      simp only [fds, List.map_append, List.map_cons] at hnd ⊢
      have hsub : (List.map Client.fd l1 ++ List.map Client.fd l2).Sublist
          (List.map Client.fd l1 ++ x.fd :: List.map Client.fd l2) :=
        List.Sublist.append_left (List.sublist_cons_self _ _) _
      refine ⟨hnd.sublist hsub, ?_⟩
      rw [List.nodup_append] at hnd
      intro _ hmem
      rcases List.mem_append.mp hmem with hm | hm
      · obtain ⟨y, hy, hyc⟩ := List.mem_map.mp hm
        exact h3 y hy hyc
      · have := (List.nodup_cons.mp hnd.2.1).1
        rw [h2] at this
        exact this hm

/-- As long as no register event falls on an fd that is already listed, the
fds of the client list stay distinct. -/
theorem registryFrom_nodup (lib : JsonLib) (wr : Nat → WriteResult)
    (events : List RegistryEvent) (clients : List Client)
    (hnd : (fds clients).Nodup) (hfresh : registersFresh lib wr clients events) :
    (fds (registryFrom lib wr clients events)).Nodup := by
  induction events generalizing clients with
  | nil => exact hnd
  | cons e rest ih =>
    cases e with
    | register fd name =>
      exact ih _ (registerClient_nodup lib wr 0 fd name clients hnd hfresh.1) hfresh.2
    | close fd =>
      exact ih _ (removeClient_nodup lib wr 0 fd clients hnd).1 hfresh

/-- C2, failing input. After two register events on fd 5 the client list
holds two entries with fd 5; the same list results when the server reads
the register message of Alice twice from fd 5. -/
theorem registry_duplicate_after_reregister :
    registryAfter referenceLib allOk [.register 5 "Alice", .register 5 "Alice"] =
        [alice, alice] ∧
      ¬ (fds (registryAfter referenceLib allOk
        [.register 5 "Alice", .register 5 "Alice"])).Nodup ∧
      (serverLoop referenceLib allOk 3 Outcome.start
        [(5, [.data registerAliceText]), (5, [.data registerAliceText])]).clients =
        [alice, alice] := by
  refine ⟨by decide, by decide, by decide⟩

/-- C3, failing input. After two register events on fd 5 and the close of
fd 5, an entry with fd 5 is still in the client list. The same happens when
the server reads the register message twice and then end of file from fd 5:
fd 5 is closed, its entry stays, and the chat Bob sends afterwards is
written to fd 5. -/
theorem stale_entry_after_close :
    registryAfter referenceLib allOk
        [.register 5 "Alice", .register 5 "Alice", .close 5] = [alice] ∧
      5 ∈ fds (registryAfter referenceLib allOk
        [.register 5 "Alice", .register 5 "Alice", .close 5]) ∧
      (serverLoop referenceLib allOk 3 Outcome.start
        [(5, [.data registerAliceText]), (5, [.data registerAliceText]),
          (5, [.eof])]).clients = [alice] ∧
      (serverLoop referenceLib allOk 3 Outcome.start
        [(5, [.data registerAliceText]), (5, [.data registerAliceText]),
          (5, [.eof]), (6, [.data chatBobText])]).events.drop 3 =
        [Event.close 5, Event.write 5 chatBobText .ok] := by
  refine ⟨by decide, by decide, by decide, by decide⟩

/-- C6, failing input. With Alice on fd 5 and Bob registered twice on fd 6,
the close of fd 5 writes the disconnect notice to fd 6 twice; the same
writes are made when the server reads these register messages and then end
of file from fd 5. -/
theorem disconnect_notice_twice :
    registryAfter referenceLib allOk
        [.register 5 "Alice", .register 6 "Bob", .register 6 "Bob"] = [alice, bob, bob] ∧
      attempts (removeClient referenceLib allOk 0 5 [alice, bob, bob]).2.events =
        [(5, disconnectAliceText), (6, disconnectAliceText), (6, disconnectAliceText)] ∧
      (attempts (removeClient referenceLib allOk 0 5 [alice, bob, bob]).2.events).count
        (6, disconnectAliceText) = 2 ∧
      attempts (serverLoop referenceLib allOk 3 Outcome.start
        [(5, [.data registerAliceText]), (6, [.data registerBobText]),
          (6, [.data registerBobText]), (5, [.eof])]).events =
        [(5, joinBobText), (5, joinBobText), (5, disconnectAliceText),
          (6, disconnectAliceText), (6, disconnectAliceText)] := by
  refine ⟨by decide, by decide, by decide, by decide⟩

/-- With distinct, non-negative fds and no write raising `SIGPIPE`, the
close of a registered fd writes the notice exactly once to every remaining
entry, and the close of an fd without an entry writes nothing and leaves
the list as it is. -/
theorem disconnect_notice_once_when_nodup (lib : JsonLib) (wr : Nat → WriteResult)
    (k : Nat) (c : Int) (clients : List Client)
    (hnd : (fds clients).Nodup) (hfd : ∀ x ∈ clients, 0 ≤ x.fd)
    (hlive : ∀ i, wr i ≠ .sigpipe) :
    (c ∉ fds clients →
        removeClient lib wr k c clients = (clients, { events := [], alive := true })) ∧
      (c ∈ fds clients → ∀ y ∈ (removeClient lib wr k c clients).1, ∃ data,
        ((attempts (removeClient lib wr k c clients).2.events).filter
          (fun a => decide (a.1 = y.fd))) = [(y.fd, data)]) := by
  constructor
  · intro hno
    have hf : find_if c clients = none := by
      rw [find_if_none]
      intro y hy hyc
      exact hno (List.mem_map.mpr ⟨y, hy, hyc⟩)
    simp [removeClient, hf]
  · intro hmem y hy
    obtain ⟨l1, x, l2, h1, _, _, h4, h6, h5⟩ :=
      removeClient_found lib wr k c clients hmem hfd hlive
    refine ⟨lib.dump (.object [("name", .string x.name), ("type", .string "disconnected")]),
      ?_⟩
    rw [h5]
    have hyc : y ∈ clients := by
      rw [h4] at hy
      rw [h1]
      rcases List.mem_append.mp hy with h | h
      · exact List.mem_append_left _ h
      · exact List.mem_append_right _ (List.mem_cons_of_mem _ h)
    clear h1 h4 h5 h6 hy hmem
    induction clients with
    | nil => cases hyc
    | cons z rest ih =>
      simp only [fds, List.map_cons, List.nodup_cons] at hnd
      rcases List.mem_cons.mp hyc with rfl | hin
      · have hnone : (List.map (fun w => (w.fd, lib.dump (Json.object
            [("name", Json.string x.name), ("type", Json.string "disconnected")]))) rest).filter
            (fun a => decide (a.1 = y.fd)) = [] := by
          rw [List.filter_eq_nil_iff]
          intro a ha
          obtain ⟨w, hw, rfl⟩ := List.mem_map.mp ha
          simp only [decide_eq_true_eq]
          intro hwy
          exact hnd.1 (List.mem_map.mpr ⟨w, hw, hwy⟩)
        simp [List.filter_cons, hnone]
      · have hne : z.fd ≠ y.fd := by
          intro h
          exact hnd.1 (List.mem_map.mpr ⟨y, hin, h.symm⟩)
        simp only [List.map_cons, List.filter_cons, hne, decide_False]
        exact ih hnd.2 (fun w hw => hfd w (List.mem_cons_of_mem _ hw)) hin

/-! ## Payloads that are not valid messages -/

/-- A payload of at least one and fewer than `BUFF_SIZE` bytes on which
`parse` throws a `parse_error` is reported and skipped: the handler goes on
with the next read, the client list and the write count unchanged. -/
theorem parse_failure_skipped (lib : JsonLib) (wr : Nat → WriteResult) (epollFd A : Int)
    (k : Nat) (clients : List Client) (payload : String) (rest : List ReadResult)
    (hsize : 0 < payload.utf8ByteSize ∧ payload.utf8ByteSize < BUFF_SIZE)
    (hparse : lib.parse payload = .error .parse_error) :
    handleClientMessage lib wr epollFd A k clients (.data payload :: rest) =
      (handleClientMessage lib wr epollFd A k clients rest).after
        [Event.cerr "Error parsing JSON"] [] := by
  have h0 : ¬ payload.utf8ByteSize = 0 := by omega
  have h1 : ¬ BUFF_SIZE ≤ payload.utf8ByteSize := by omega
  simp [handleClientMessage, tryBlock, hparse, h0, h1, decodedOf]

/-- A register message whose name is not a string makes the conversion to
`std::string` throw a `type_error`, which the handler does not catch. -/
theorem register_bad_name_uncaught (lib : JsonLib) (wr : Nat → WriteResult)
    (epollFd A : Int) (k : Nat) (clients : List Client) (payload : String)
    (j nameJson : Json) (rest : List ReadResult)
    (hsize : 0 < payload.utf8ByteSize ∧ payload.utf8ByteSize < BUFF_SIZE)
    (hparse : lib.parse payload = .ok j) (hreg : isRegister j = .ok true)
    (hname : j.subscript "name" = .ok nameJson)
    (hbad : nameJson.getString = .error .type_error) :
    handleClientMessage lib wr epollFd A k clients (.data payload :: rest) =
      { clients := clients, events := [], decoded := [j],
        ended := some (.uncaught .type_error) } := by
  have h0 : ¬ payload.utf8ByteSize = 0 := by omega
  have h1 : ¬ BUFF_SIZE ≤ payload.utf8ByteSize := by omega
  simp [handleClientMessage, tryBlock, hparse, hreg, hname, hbad, h0, h1, decodedOf]

/-- C7, failing input. Fd 5 sends a register message without a name while
Bob (6) and Carol (7) are listed: a `type_error` leaves `handleClientMessage`
uncaught, and the chat Bob sends next is not written to Carol; had the
bytes of fd 5 not parsed at all, Carol would have been written the chat. -/
theorem register_without_name_uncaught :
    referenceLib.parse registerNoNameText =
        .ok (.object [("type", .string "register")]) ∧
      handleClientMessage referenceLib allOk 3 5 0 [bob, carol]
        [.data registerNoNameText] =
        { clients := [bob, carol], events := [],
          decoded := [.object [("type", .string "register")]],
          ended := some (.uncaught .type_error) } ∧
      serverLoop referenceLib allOk 3
        { clients := [bob, carol], events := [], decoded := [], ended := none }
        [(5, [.data registerNoNameText]), (6, [.data chatBobText])] =
        { clients := [bob, carol], events := [],
          decoded := [.object [("type", .string "register")]],
          ended := some (.uncaught .type_error) } ∧
      serverLoop referenceLib allOk 3
        { clients := [bob, carol], events := [], decoded := [], ended := none }
        [(5, [.data "\x7b\"type\":"]), (6, [.data chatBobText])] =
        { clients := [bob, carol],
          events := [Event.cerr "Error parsing JSON", Event.write 7 chatBobText .ok],
          decoded := [.object [("message", .string "yo"), ("name", .string "Bob"),
            ("time", .string "10:01")]],
          ended := none } := by
  refine ⟨rfl, rfl, rfl, rfl⟩

end ChatServer
